import Mathlib

/-!
Verification of the job_match_agent skill-matching and text-normalization
pipeline (src/tools/*.py) against its specification.

The Python sources are shallowly embedded: JSON values become the inductive
type `JValue`, Python floats become `ℚ` (exact rational arithmetic; the spec
leaves the rounding mode open, we use round-half-up which is deterministic),
Python exceptions become `Except PyErr`, and the file-system effect of the
run logger becomes an explicit `append` parameter.  Functions keep the names
of the Python functions they embed.
-/

/-! ### Python string primitives -/

/-- Python `str.lower()` on one character (ASCII range, as exercised by the
vocabulary and all inputs of interest). -/
def pyLowerChar (c : Char) : Char :=
  if 65 ≤ c.toNat ∧ c.toNat ≤ 90 then Char.ofNat (c.toNat + 32) else c

/-- Python `str.lower()`. -/
def pyLower (s : String) : String := ⟨s.data.map pyLowerChar⟩

/-- Python whitespace stripped by `str.strip()` (space, \t, \n, \v, \f, \r). -/
def isPySpace (c : Char) : Bool :=
  c.toNat == 32 || c.toNat == 9 || c.toNat == 10 || c.toNat == 11 ||
  c.toNat == 12 || c.toNat == 13

/-- Python `str.strip()` on a character list: drop whitespace from both ends. -/
def pyStripList (l : List Char) : List Char :=
  ((l.dropWhile isPySpace).reverse.dropWhile isPySpace).reverse

/-- Python `str.strip()`. -/
def pyStrip (s : String) : String := ⟨pyStripList s.data⟩

/-- Lexicographic `≤` on code-point lists: the order Python uses to compare
strings (and hence the order of `sorted`). -/
def lexLe : List Char → List Char → Bool
  | [], _ => true
  | _ :: _, [] => false
  | c :: cs, d :: ds =>
    if c.toNat < d.toNat then true
    else if d.toNat < c.toNat then false
    else lexLe cs ds

/-- Python's `≤` on strings, as a proposition. -/
def strLeP (a b : String) : Prop := lexLe a.data b.data = true

instance : DecidableRel strLeP := fun _ _ => inferInstanceAs (Decidable (_ = true))

/-- Python `sorted` on a list of strings. -/
def sortStrings (l : List String) : List String := List.insertionSort strLeP l

/-- First-occurrence deduplication (the `seen`-set loop used by the parsers,
also a faithful model of building a Python `set` from a list as far as the
resulting set of elements is concerned). -/
def dedupFirstAux (seen : List String) : List String → List String
  | [] => []
  | x :: xs => if x ∈ seen then dedupFirstAux seen xs else x :: dedupFirstAux (x :: seen) xs

/-- Deduplicate preserving first-occurrence order. -/
def dedupFirst (l : List String) : List String := dedupFirstAux [] l

/-- Contiguous-substring test on character lists (Python's `in` on strings). -/
def listInfixB : List Char → List Char → Bool
  | n, [] => n.isEmpty
  | n, c :: t => n.isPrefixOf (c :: t) || listInfixB n t

/-- Python `needle in hay` for strings. -/
def pyIn (needle hay : String) : Bool := listInfixB needle.data hay.data

/-! ### JSON values and Python runtime errors -/

/-- Exceptions the embedded code can raise. -/
inductive PyErr where
  | typeError
  | attributeError
  | valueError
  | indexError
  | jsonDecodeError
  deriving DecidableEq

/-- Python values produced by `json.loads`: `None`, booleans, numbers
(modelled exactly as rationals), strings, lists and string-keyed dicts
(insertion-ordered association lists with unique keys). -/
inductive JValue where
  | null
  | bool (b : Bool)
  | num (q : ℚ)
  | str (s : String)
  | arr (elems : List JValue)
  | obj (fields : List (String × JValue))

/-- Python truthiness: `None`, `False`, `0`, `""`, `[]`, `{}` are falsy. -/
def pyTruthy : JValue → Bool
  | .null => false
  | .bool b => b
  | .num q => decide (q ≠ 0)
  | .str s => !s.isEmpty
  | .arr l => !l.isEmpty
  | .obj m => !m.isEmpty

/-- Python `a or b`. -/
def pyOr (a b : JValue) : JValue := if pyTruthy a then a else b

/-- Decimal expansion of the fractional part of `r/d`, up to 17 digits (the
precision of a Python float's repr; our claims never inspect longer tails). -/
def fracDigits : Nat → Nat → Nat → List Char
  | 0, _, _ => []
  | _, 0, _ => []
  | fuel+1, r, d =>
    Char.ofNat (48 + r * 10 / d) :: fracDigits fuel (r * 10 % d) d

/-- Python `str()` of a number (integers without a decimal point, other
rationals by their terminating decimal expansion). -/
def numRepr (q : ℚ) : String :=
  let sign := if q.num < 0 then "-" else ""
  let n := q.num.natAbs
  if q.den = 1 then sign ++ toString n
  else sign ++ toString (n / q.den) ++ "." ++ ⟨fracDigits 17 (n % q.den) q.den⟩

/-- Python `repr()` of a JSON-shaped value, with fuel for the nesting depth
(Python itself aborts at recursion depth ≈1000; quote-escaping inside
strings is not reproduced, no claim inspects it). -/
def pyRepr : Nat → JValue → String
  | _, .null => "None"
  | _, .bool b => if b then "True" else "False"
  | _, .num q => numRepr q
  | _, .str s => "\x27" ++ s ++ "\x27"
  | 0, .arr _ => "[...]"
  | 0, .obj _ => "\x7b...\x7d"
  | f+1, .arr l => "[" ++ String.intercalate ", " (l.map (pyRepr f)) ++ "]"
  | f+1, .obj m =>
    "\x7b" ++ String.intercalate ", "
      (m.map (fun p => "\x27" ++ p.1 ++ "\x27: " ++ pyRepr f p.2)) ++ "\x7d"

/-- Python `str()` (as used by f-string interpolation `{x}`). -/
def pyStr : JValue → String
  | .str s => s
  | v => pyRepr 1000 v

/-- Python `repr()` of a list of strings, as an f-string renders
`['python', 'sql']`. -/
def listReprStr (l : List String) : String :=
  "[" ++ String.intercalate ", " (l.map (fun s => "\x27" ++ s ++ "\x27")) ++ "]"

/-- Python `dict.get(key, default)`; raises `AttributeError` on a non-dict
(`'list' object has no attribute 'get'`). -/
def pyDictGet (v : JValue) (key : String) (dflt : JValue) : Except PyErr JValue :=
  match v with
  | .obj fs => .ok (((fs.find? (fun p => p.1 == key)).map Prod.snd).getD dflt)
  | _ => .error .attributeError

/-- Total lookup with default in a field list (used to state properties of
objects the embedded code builds). -/
def jlookupD (fs : List (String × JValue)) (key : String) (dflt : JValue) : JValue :=
  ((fs.find? (fun p => p.1 == key)).map Prod.snd).getD dflt

/-- Python iteration `for x in v`: lists yield elements, strings yield
1-character strings, dicts yield their keys; numbers, booleans and `None`
raise `TypeError`. -/
def pyIter : JValue → Except PyErr (List JValue)
  | .arr l => .ok l
  | .str s => .ok (s.data.map (fun c => .str ⟨[c]⟩))
  | .obj fs => .ok (fs.map (fun p => .str p.1))
  | _ => .error .typeError

/-- Digit-list to number. -/
def digitsVal (ds : List Char) : Nat := ds.foldl (fun a c => a * 10 + (c.toNat - 48)) 0

/-- Exponent suffix of a Python/JSON numeric literal: mantissa already
parsed, parse an optional `e`/`E` exponent; fails on trailing garbage. -/
def finishNum (m : ℚ) (l : List Char) : Option ℚ :=
  match l with
  | [] => some m
  | c :: t =>
    if c.toNat = 101 ∨ c.toNat = 69 then
      match t with
      | [] => none
      | c2 :: t2 =>
        let (esgn, td) : ℤ × List Char :=
          if c2.toNat = 43 then (1, t2)
          else if c2.toNat = 45 then (-1, t2)
          else (1, t)
        let ed := td.takeWhile Char.isDigit
        if ed.isEmpty ∨ !(td.dropWhile Char.isDigit).isEmpty then none
        else some (m * (10 : ℚ) ^ (esgn * (digitsVal ed : ℤ)))
    else none

/-- Python `float(str)` on the stripped text: `[+-]? (digits [. digits?] |
. digits) exponent?`.  (`inf`/`nan` literals are not modelled — they have no
rational value and no claim involves them.) -/
def strToQ (s : String) : Option ℚ :=
  let l := pyStripList s.data
  let (sgn, l1) : ℚ × List Char :=
    match l with
    | c :: t =>
      if c.toNat = 45 then (-1, t) else if c.toNat = 43 then (1, t) else (1, l)
    | [] => (1, l)
  let ip := l1.takeWhile Char.isDigit
  let l2 := l1.dropWhile Char.isDigit
  match l2 with
  | c :: t =>
    if c.toNat = 46 then
      let fp := t.takeWhile Char.isDigit
      if ip.isEmpty ∧ fp.isEmpty then none
      else
        (finishNum ((digitsVal ip : ℚ) + (digitsVal fp : ℚ) / (10 : ℚ) ^ fp.length)
          (t.dropWhile Char.isDigit)).map (sgn * ·)
    else if ip.isEmpty then none
    else (finishNum (digitsVal ip : ℚ) l2).map (sgn * ·)
  | [] => if ip.isEmpty then none else some (sgn * (digitsVal ip : ℚ))

/-- Python `float(x)`: numbers pass through, booleans become 0/1, numeric
strings are parsed (`ValueError` otherwise), everything else raises
`TypeError`. -/
def pyFloat : JValue → Except PyErr ℚ
  | .num q => .ok q
  | .bool b => .ok (if b then 1 else 0)
  | .str s => match strToQ s with | some q => .ok q | none => .error .valueError
  | _ => .error .typeError

/-- Python `min` on two floats. -/
def pyMin (a b : ℚ) : ℚ := if a ≤ b then a else b

/-- Python `max` on two floats. -/
def pyMax (a b : ℚ) : ℚ := if b ≤ a then a else b

/-- Python `round(x, 3)` (round-half-up at the third decimal; the spec
accepts any deterministic tie-break, binary-float ties are not modelled). -/
def pyRound3 (q : ℚ) : ℚ := (round (1000 * q) : ℤ) / 1000

/-- Python `f"{x:.2f}"` for a rational. -/
def format2 (q : ℚ) : String :=
  let neg := q < 0
  let n := (round (100 * (if neg then -q else q)) : ℤ).toNat
  (if neg then "-" else "") ++ toString (n / 100) ++ "." ++
    (if n % 100 < 10 then "0" else "") ++ toString (n % 100)

/-- Python `f"{x:.2f}"` on an arbitrary value: floats and booleans format,
strings raise `ValueError` (unknown format code), the rest `TypeError`. -/
def pyFormat2 : JValue → Except PyErr String
  | .num q => .ok (format2 q)
  | .bool b => .ok (format2 (if b then 1 else 0))
  | .str _ => .error .valueError
  | _ => .error .typeError

/-- Python `", ".join(v)`: iterate `v`, every element must be a `str`. -/
def pyJoinStr (sep : String) (v : JValue) : Except PyErr String := do
  let items ← pyIter v
  let strs ← items.mapM (fun x =>
    match x with
    | .str s => Except.ok s
    | _ => Except.error PyErr.typeError)
  return String.intercalate sep strs

/-- Python slicing `v[:n]` (lists and strings; unhashable-slice `TypeError`
otherwise). -/
def pySlice (v : JValue) (n : Nat) : Except PyErr JValue :=
  match v with
  | .arr l => .ok (.arr (l.take n))
  | .str s => .ok (.str (s.take n))
  | _ => .error .typeError

/-- Python `len(v)`. -/
def pyLen : JValue → Except PyErr Nat
  | .arr l => .ok l.length
  | .str s => .ok s.length
  | .obj m => .ok m.length
  | _ => .error .typeError

/-- Python indexing `v[i]` for a natural index. -/
def pyIndex (v : JValue) (i : Nat) : Except PyErr JValue :=
  match v with
  | .arr l => match l.get? i with | some x => .ok x | none => .error .indexError
  | .str s => match s.data.get? i with | some c => .ok (.str ⟨[c]⟩) | none => .error .indexError
  | _ => .error .typeError

/-- Python `v == "lit"` for a string literal: `False` unless `v` is an equal
string. -/
def pyEqStr (v : JValue) (s : String) : Bool :=
  match v with
  | .str t => t == s
  | _ => false

/-! ### `json.loads` -/

/-- JSON insignificant whitespace. -/
def isJsonWs (c : Char) : Bool :=
  c.toNat == 32 || c.toNat == 9 || c.toNat == 10 || c.toNat == 13

/-- Skip JSON whitespace. -/
def skipWs (l : List Char) : List Char := l.dropWhile isJsonWs

/-- Hex digit value. -/
def hexVal (c : Char) : Option Nat :=
  if 48 ≤ c.toNat ∧ c.toNat ≤ 57 then some (c.toNat - 48)
  else if 97 ≤ c.toNat ∧ c.toNat ≤ 102 then some (c.toNat - 87)
  else if 65 ≤ c.toNat ∧ c.toNat ≤ 70 then some (c.toNat - 55)
  else none

/-- Single-character JSON escapes. -/
def escChar (e : Char) : Option Char :=
  if e.toNat = 34 then some (Char.ofNat 34)
  else if e.toNat = 92 then some (Char.ofNat 92)
  else if e.toNat = 47 then some (Char.ofNat 47)
  else if e.toNat = 98 then some (Char.ofNat 8)
  else if e.toNat = 102 then some (Char.ofNat 12)
  else if e.toNat = 110 then some (Char.ofNat 10)
  else if e.toNat = 114 then some (Char.ofNat 13)
  else if e.toNat = 116 then some (Char.ofNat 9)
  else none

/-- JSON string literal body (opening quote already consumed). -/
def parseJStr : Nat → List Char → Option (String × List Char)
  | 0, _ => none
  | fuel+1, l =>
    match l with
    | [] => none
    | c :: t =>
      if c.toNat = 34 then some ("", t)
      else if c.toNat = 92 then
        match t with
        | [] => none
        | e :: t2 =>
          if e.toNat = 117 then
            match t2 with
            | a :: b :: c2 :: d :: t3 =>
              match hexVal a, hexVal b, hexVal c2, hexVal d with
              | some ha, some hb, some hc, some hd =>
                (parseJStr fuel t3).map
                  (fun p => (⟨Char.ofNat (((ha * 16 + hb) * 16 + hc) * 16 + hd) :: p.1.data⟩, p.2))
              | _, _, _, _ => none
            | _ => none
          else
            match escChar e with
            | some ch => (parseJStr fuel t2).map (fun p => (⟨ch :: p.1.data⟩, p.2))
            | none => none
      else (parseJStr fuel t).map (fun p => (⟨c :: p.1.data⟩, p.2))

/-- JSON number token: `-? (0 | [1-9]digits) frac? exp?`, value as a
rational. -/
def parseNum (l : List Char) : Option (ℚ × List Char) :=
  let (neg, l1) : Bool × List Char :=
    match l with
    | c :: t => if c.toNat = 45 then (true, t) else (false, l)
    | [] => (false, l)
  let ip := l1.takeWhile Char.isDigit
  let l2 := l1.dropWhile Char.isDigit
  if ip.isEmpty then none
  else if ip.length > 1 ∧ ip.headD (Char.ofNat 48) = Char.ofNat 48 then none
  else
    let withFrac : Option ((ℚ × ℤ) × List Char) :=
      match l2 with
      | c :: t =>
        if c.toNat = 46 then
          let fp := t.takeWhile Char.isDigit
          if fp.isEmpty then none
          else some (((digitsVal ip : ℚ) + (digitsVal fp : ℚ) / (10 : ℚ) ^ fp.length, 0),
            t.dropWhile Char.isDigit)
        else some (((digitsVal ip : ℚ), 0), l2)
      | [] => some (((digitsVal ip : ℚ), 0), l2)
    match withFrac with
    | none => none
    | some ((m, _), l3) =>
      match l3 with
      | c :: t =>
        if c.toNat = 101 ∨ c.toNat = 69 then
          let (esgn, td) : ℤ × List Char :=
            match t with
            | c2 :: t2 =>
              if c2.toNat = 43 then (1, t2)
              else if c2.toNat = 45 then (-1, t2)
              else (1, t)
            | [] => (1, t)
          let ed := td.takeWhile Char.isDigit
          if ed.isEmpty then none
          else some ((if neg then -1 else 1) * m * (10 : ℚ) ^ (esgn * (digitsVal ed : ℤ)),
            td.dropWhile Char.isDigit)
        else some ((if neg then -1 else 1) * m, l3)
      | [] => some ((if neg then -1 else 1) * m, l3)

/-- Insert a parsed member in front of the members of the rest of the
object, with Python's duplicate-key rule: first-occurrence position, last
value wins. -/
def objCons (k : String) (v : JValue) (ms : List (String × JValue)) :
    List (String × JValue) :=
  match ms.find? (fun p => p.1 == k) with
  | some p => (k, p.2) :: ms.filter (fun q => !(q.1 == k))
  | none => (k, v) :: ms

/-- Recursive JSON value parser.  Fuel decreases at every recursive call;
array/object continuations after a comma re-enter through a reconstructed
opening bracket, so one unit of fuel per input character plus two is always
enough. -/
def parseValue : Nat → List Char → Option (JValue × List Char)
  | 0, _ => none
  | fuel+1, l =>
    match skipWs l with
    | [] => none
    | c :: t =>
      if c.toNat = 110 then
        match t with
        | c1 :: c2 :: c3 :: r =>
          if c1.toNat = 117 ∧ c2.toNat = 108 ∧ c3.toNat = 108 then some (.null, r) else none
        | _ => none
      else if c.toNat = 116 then
        match t with
        | c1 :: c2 :: c3 :: r =>
          if c1.toNat = 114 ∧ c2.toNat = 117 ∧ c3.toNat = 101 then some (.bool true, r) else none
        | _ => none
      else if c.toNat = 102 then
        match t with
        | c1 :: c2 :: c3 :: c4 :: r =>
          if c1.toNat = 97 ∧ c2.toNat = 108 ∧ c3.toNat = 115 ∧ c4.toNat = 101 then
            some (.bool false, r)
          else none
        | _ => none
      else if c.toNat = 34 then (parseJStr fuel t).map (fun p => (.str p.1, p.2))
      else if c.toNat = 91 then
        match skipWs t with
        | [] => none
        | c2 :: t2 =>
          if c2.toNat = 93 then some (.arr [], t2)
          else
            match parseValue fuel t with
            | none => none
            | some (v, r) =>
              match skipWs r with
              | [] => none
              | c3 :: r2 =>
                if c3.toNat = 93 then some (.arr [v], r2)
                else if c3.toNat = 44 then
                  match skipWs r2 with
                  | [] => none
                  | c4 :: _ =>
                    if c4.toNat = 93 then none
                    else
                      match parseValue fuel (Char.ofNat 91 :: r2) with
                      | some (.arr es, r3) => some (.arr (v :: es), r3)
                      | _ => none
                else none
      else if c.toNat = 123 then
        match skipWs t with
        | [] => none
        | c2 :: t2 =>
          if c2.toNat = 125 then some (.obj [], t2)
          else if c2.toNat = 34 then
            match parseJStr fuel t2 with
            | none => none
            | some (k, r) =>
              match skipWs r with
              | [] => none
              | c3 :: r2 =>
                if c3.toNat = 58 then
                  match parseValue fuel r2 with
                  | none => none
                  | some (v, r3) =>
                    match skipWs r3 with
                    | [] => none
                    | c4 :: r4 =>
                      if c4.toNat = 125 then some (.obj [(k, v)], r4)
                      else if c4.toNat = 44 then
                        match skipWs r4 with
                        | [] => none
                        | c5 :: _ =>
                          if c5.toNat = 34 then
                            match parseValue fuel (Char.ofNat 123 :: r4) with
                            | some (.obj ms, r5) => some (.obj (objCons k v ms), r5)
                            | _ => none
                          else none
                      else none
                else none
          else none
      else (parseNum (c :: t)).map (fun p => (.num p.1, p.2))

/-- Python `json.loads`: parse one JSON value, require only whitespace after
it; `none` models a raised `json.JSONDecodeError`. -/
def json_loads (s : String) : Option JValue :=
  match parseValue (s.data.length + 2) s.data with
  | some (v, r) => if (skipWs r).isEmpty then some v else none
  | none => none

/-- The `try: json.loads(...) except: {}` guard used throughout
`improved_tools.py`: a parse failure degrades to the empty dict (a parse
SUCCESS with a non-dict value passes through unchanged). -/
def loadsOrEmpty (s : String) : JValue := (json_loads s).getD (.obj [])

/-! ### `tools/match_tools.py` -/

/-- The skill vocabulary of `match_tools.py`. -/
def _SKILL_VOCAB : List String :=
  ["java", "python", "javascript", "typescript", "c", "c++", "sql", "html",
   "css", "react", "angular", "vue", "spring", "spring boot", "django",
   "flask", "fastapi", "node.js", "nodejs", "express", "mongodb",
   "postgresql", "mysql", "docker", "kubernetes", "aws", "gcp", "azure",
   "rest", "restful", "graphql"]

/-- Embeds `_extract_skills_from_text`: the set of vocabulary entries contained in
the lowercased text, returned by `sorted(...)`. -/
def _extract_skills_from_text (text : String) : List String :=
  sortStrings (dedupFirst (_SKILL_VOCAB.filter (fun skill => pyIn skill (pyLower text))))

/-- Embeds `_ensure_resume_profile`: parsed-dict pass-through, otherwise the
raw-text fallback profile. -/
def _ensure_resume_profile (value : String) : JValue :=
  match json_loads value with
  | some (.obj fs) => .obj fs
  | _ => .obj [("raw_text", .str value),
               ("skills", .arr ((_extract_skills_from_text value).map .str))]

/-- Embeds `_ensure_job_profile`: parsed-dict pass-through, otherwise the raw-text
fallback profile. -/
def _ensure_job_profile (value : String) : JValue :=
  match json_loads value with
  | some (.obj fs) => .obj fs
  | _ => .obj [("raw_text", .str value),
               ("required_skills", .arr ((_extract_skills_from_text value).map .str))]

/-- The comprehension `[s.lower() for s in profile.get(key, [])]`
(`.lower()` on a non-string element raises `AttributeError`). -/
def lowerSkillList (profile : JValue) (key : String) : Except PyErr (List String) := do
  let raw ← pyDictGet profile key (.arr [])
  let items ← pyIter raw
  items.mapM (fun v =>
    match v with
    | .str s => Except.ok (pyLower s)
    | _ => Except.error PyErr.attributeError)

/-- Embeds `sorted(list(resume_set & job_set))` of `compute_match`. -/
def matchOverlap (resume_skills job_skills : List String) : List String :=
  sortStrings (dedupFirst (resume_skills.filter (fun s => decide (s ∈ job_skills))))

/-- Embeds `sorted(list(job_set - resume_set))` of `compute_match`. -/
def matchMissing (resume_skills job_skills : List String) : List String :=
  sortStrings (dedupFirst (job_skills.filter (fun s => decide (s ∉ resume_skills))))

/-- Embeds `len(job_set)` of `compute_match`. -/
def jobSetSize (job_skills : List String) : Nat := (dedupFirst job_skills).length

/-- Embeds the `score` computed at lines 129-132 of `compute_match`. -/
def matchScore (resume_skills job_skills : List String) : ℚ :=
  if jobSetSize job_skills = 0 then 0
  else ((matchOverlap resume_skills job_skills).length : ℚ) / (jobSetSize job_skills : ℚ)

/-- Embeds the `explanation` f-string of `compute_match`. -/
def matchExplanation (resume_skills job_skills : List String) : String :=
  let overlap := matchOverlap resume_skills job_skills
  let missing := matchMissing resume_skills job_skills
  "Matched " ++ toString overlap.length ++ " out of " ++
  toString (jobSetSize job_skills) ++ " required skills. Overlap: " ++
  (if overlap.isEmpty then "none" else listReprStr overlap) ++ ". Missing: " ++
  (if missing.isEmpty then "none" else listReprStr missing) ++ "."

/-- Embeds the `result` dict of `compute_match` as its field list. -/
def compute_match_fields (resume_skills job_skills : List String) :
    List (String × JValue) :=
  [("score", .num (pyRound3 (matchScore resume_skills job_skills))),
   ("overlapping_skills", .arr ((matchOverlap resume_skills job_skills).map .str)),
   ("missing_skills", .arr ((matchMissing resume_skills job_skills).map .str)),
   ("explanation", .str (matchExplanation resume_skills job_skills))]

/-- Embeds lines 123-146 of `compute_match`: set algebra, score, explanation
and the result object, on the already-lowercased skill lists. -/
def compute_match_core (resume_skills job_skills : List String) : JValue :=
  .obj (compute_match_fields resume_skills job_skills)

/-- Embeds `compute_match` (the returned JSON string is modelled as the object it
serializes). -/
def compute_match (resume_profile_json job_profile_json : String) :
    Except PyErr JValue := do
  let resume_profile := _ensure_resume_profile resume_profile_json
  let job_profile := _ensure_job_profile job_profile_json
  let resume_skills ← lowerSkillList resume_profile "skills"
  let job_skills ← lowerSkillList job_profile "required_skills"
  return compute_match_core resume_skills job_skills

/-! ### `tools/resume_tools.py` and `tools/job_tools.py` -/

/-- The skill vocabulary shared by `resume_tools.py` and `job_tools.py`
(distinct from `_SKILL_VOCAB`). -/
def COMMON_SKILLS : List String :=
  ["java", "python", "c++", "c#", "javascript", "typescript", "react",
   "angular", "spring", "spring boot", "django", "flask", "aws", "azure",
   "gcp", "kubernetes", "docker", "sql", "mongodb", "rest", "microservices",
   "graphql", "kafka", "spark"]

/-- Embeds `_extract_skills` of `resume_tools.py`: vocabulary-order substring scan,
first-occurrence deduplication. -/
def _extract_skills (resume_text : String) : List String :=
  dedupFirst (COMMON_SKILLS.filter (fun skill => pyIn skill (pyLower resume_text)))

/-- Embeds `_extract_required_skills` of `job_tools.py` (same algorithm and
vocabulary as `_extract_skills`). -/
def _extract_required_skills (job_text : String) : List String :=
  dedupFirst (COMMON_SKILLS.filter (fun skill => pyIn skill (pyLower job_text)))

/-- Split into lines (Python `str.splitlines` restricted to `\n`
terminators, the only ones the claims exercise). -/
def splitLinesAux (cur : List Char) : List Char → List String
  | [] => [⟨cur.reverse⟩]
  | c :: t =>
    if c.toNat = 10 then ⟨cur.reverse⟩ :: splitLinesAux [] t
    else splitLinesAux (cur ++ [c]) t

/-- Python `str.splitlines()`. -/
def pySplitLines (s : String) : List String := splitLinesAux [] s.data

/-- Embeds `_extract_name` of `resume_tools.py`: first non-empty stripped line. -/
def _extract_name (resume_text : String) : String :=
  (((pySplitLines resume_text).map pyStrip).find? (fun l => !l.isEmpty)).getD
    "Unknown Candidate"

/-- Embeds `parse_resume` (returned JSON string modelled as the object it
serializes). -/
def parse_resume (resume_text : String) : JValue :=
  .obj [("name", .str (_extract_name resume_text)),
        ("skills", .arr ((_extract_skills resume_text).map .str)),
        ("raw_text", .str resume_text)]

/-! ### `tools/json_tools.py` -/

/-- Embeds `parse_json`: a bare `json.loads` with no guard — a decode failure
propagates to the caller. -/
def parse_json (json_str : String) : Except PyErr JValue :=
  match json_loads json_str with
  | some v => .ok v
  | none => .error .jsonDecodeError

/-! ### `tools/improved_tools.py` — `validate_match_output` -/

/-- Lines 35-40: `float(...)`-coercion of the score with the
`except: score = 0.0` guard, followed by `max(0.0, min(1.0, score))`. -/
def coerceScore (v : JValue) : ℚ :=
  pyMax 0 (pyMin 1 (match pyFloat v with | .ok q => q | .error _ => 0))

/-- Lines 42-47 for one skill-list field:
`sorted({str(s).strip().lower() for s in (v or []) if str(s).strip()})`. -/
def normSkillSet (v : JValue) : Except PyErr (List String) := do
  let items ← pyIter (pyOr v (.arr []))
  return sortStrings (dedupFirst (items.filterMap (fun s =>
    let t := pyStrip (pyStr s)
    if t.isEmpty then none else some (pyLower t))))

/-- The four fields of the dict built by `validate_match_output`. -/
structure VRes where
  score : ℚ
  overlapping_skills : List String
  missing_skills : List String
  explanation : JValue

/-- Embeds `validate_match_output` after the `json.loads` guard, producing the
normalized fields. -/
def validate_norm (data : JValue) : Except PyErr VRes := do
  let scoreV ← pyDictGet data "score" (.num 0)
  let score := coerceScore scoreV
  let overlappingV ← pyDictGet data "overlapping_skills" (.arr [])
  let missingV ← pyDictGet data "missing_skills" (.arr [])
  let explanationV ← pyDictGet data "explanation" (.str "")
  let explanation := pyOr explanationV (.str "")
  let overlapping ← normSkillSet overlappingV
  let missing ← normSkillSet missingV
  return ⟨score, overlapping, missing, explanation⟩

/-- The normalized dict `validate_match_output` serializes. -/
def VRes.toJValue (r : VRes) : JValue :=
  .obj [("score", .num r.score),
        ("overlapping_skills", .arr (r.overlapping_skills.map .str)),
        ("missing_skills", .arr (r.missing_skills.map .str)),
        ("explanation", r.explanation)]

/-- Embeds `validate_match_output` at the JSON-value level: its string boundary is
`json.dumps` of this object, and `json.loads ∘ json.dumps` is the identity
on the objects it emits, so composition at the value level is faithful to
composition at the string level. -/
def validate_match_output (data : JValue) : Except PyErr JValue :=
  (validate_norm data).map VRes.toJValue

/-! ### `tools/improved_tools.py` — generators -/

/-- Embeds `explain_match`. -/
def explain_match (resume_profile_json job_profile_json match_result_json : String) :
    Except PyErr String := do
  let resume_profile := loadsOrEmpty resume_profile_json
  let job_profile := loadsOrEmpty job_profile_json
  let match_result := loadsOrEmpty match_result_json
  let scoreV ← pyDictGet match_result "score" (.num 0)
  let score ← pyFloat scoreV
  let overlapping := pyOr (← pyDictGet match_result "overlapping_skills" (.arr [])) (.arr [])
  let missing := pyOr (← pyDictGet match_result "missing_skills" (.arr [])) (.arr [])
  let name ← pyDictGet resume_profile "name" (.str "the candidate")
  let role_title ← pyDictGet job_profile "role_title" (.str "this role")
  let label : String :=
    if (4 / 5 : ℚ) ≤ score then "strong"
    else if (1 / 2 : ℚ) ≤ score then "moderate"
    else "limited"
  let strengths_str ←
    if pyTruthy overlapping then do
      pyJoinStr ", " (← pySlice overlapping 8)
    else pure "no clear overlapping skills detected"
  let gaps_str ←
    if pyTruthy missing then do
      pyJoinStr ", " (← pySlice missing 8)
    else pure "no major skill gaps identified"
  return "Overall, " ++ pyStr name ++ " appears to be a " ++ label ++
    " match for " ++ pyStr role_title ++ " with a score of " ++ format2 score ++
    ". Key overlapping skills include: " ++ strengths_str ++
    ". Important skills that are emphasized in the job description but appear weaker or missing in the resume include: " ++
    gaps_str ++
    ". This suggests that the candidate is well-aligned on several core requirements but could strengthen their profile by gaining or better highlighting experience in the missing areas."

/-- Embeds `suggest_resume_edits`. -/
def suggest_resume_edits (resume_profile_json job_profile_json match_result_json : String) :
    Except PyErr String := do
  let resume_profile := loadsOrEmpty resume_profile_json
  let job_profile := loadsOrEmpty job_profile_json
  let match_result := loadsOrEmpty match_result_json
  let name ← pyDictGet resume_profile "name" (.str "you")
  let role_title ← pyDictGet job_profile "role_title" (.str "this role")
  let required_skills := pyOr (← pyDictGet job_profile "required_skills" (.arr [])) (.arr [])
  let overlapping := pyOr (← pyDictGet match_result "overlapping_skills" (.arr [])) (.arr [])
  let missing := pyOr (← pyDictGet match_result "missing_skills" (.arr [])) (.arr [])
  let header :=
    ["Tailoring suggestions for " ++ pyStr name ++ " targeting " ++ pyStr role_title ++ ":", ""]
  let overlapPart ←
    if pyTruthy overlapping then do
      let j ← pyJoinStr ", " (← pySlice overlapping 10)
      pure ["- Highlight these overlapping skills in your summary and skills section, since they directly match the job requirements:",
            "  " ++ j, ""]
    else pure []
  let missingPart ←
    if pyTruthy missing then do
      let j ← pyJoinStr ", " (← pySlice missing 10)
      pure ["- The job emphasizes the following skills that are weak or missing in your current resume:",
            "  " ++ j,
            "  If you have any exposure (courses, projects, internships), add bullets explicitly mentioning them.",
            ""]
    else pure []
  let requiredPart ←
    if pyTruthy required_skills then do
      let j ← pyJoinStr ", " (← pySlice required_skills 12)
      pure ["- Rephrase some existing bullets to mirror key JD terms (without fabricating experience). Use wording like:",
            "  Example JD keywords: " ++ j, ""]
    else pure []
  let finalPart :=
    ["- Add one line in your professional summary explicitly targeting this type of role, e.g., \x27MS CS candidate with hands-on experience in X and Y, targeting roles in Z.\x27"]
  return String.intercalate "\n" (header ++ overlapPart ++ missingPart ++ requiredPart ++ finalPart)

/-- Embeds `generate_targeted_bullets`. -/
def generate_targeted_bullets (resume_profile_json job_profile_json : String) :
    Except PyErr String := do
  let resume_profile := loadsOrEmpty resume_profile_json
  let job_profile := loadsOrEmpty job_profile_json
  let name ← pyDictGet resume_profile "name" (.str "")
  let role_title ← pyDictGet job_profile "role_title" (.str "the role")
  let required_skills := pyOr (← pyDictGet job_profile "required_skills" (.arr [])) (.arr [])
  let top_skills ← pySlice required_skills 5
  let headerPart := ["Suggested bullets tailored for " ++ pyStr role_title ++ ":"]
  let topPart ←
    if pyTruthy top_skills then do
      let j3 ← pyJoinStr ", " (← pySlice top_skills 3)
      let first :=
        ["- Designed and implemented features leveraging " ++ j3 ++
         " to meet project or course requirements with a focus on reliability and performance."]
      let len ← pyLen top_skills
      if len > 1 then do
        let t0 ← pyIndex top_skills 0
        let t1 ← pyIndex top_skills 1
        pure (first ++
          ["- Built end-to-end functionality combining " ++ pyStr t0 ++ " and " ++ pyStr t1 ++
           " in a team setting, using Git-based workflows and code reviews."])
      else pure first
    else pure []
  let fixedPart :=
    ["- Applied software engineering best practices (version control, testing, CI/CD where applicable) to keep changes safe and maintainable.",
     "- Communicated technical decisions and trade-offs clearly to teammates, adapting explanations for both technical and non-technical collaborators."]
  let namePart :=
    if pyTruthy name then
      ["- As " ++ pyStr name ++ ", proactively explored new tools and frameworks relevant to this role and integrated them into projects."]
    else []
  return String.intercalate "\n" (headerPart ++ topPart ++ fixedPart ++ namePart)

/-! ### `tools/improved_tools.py` — `log_run` -/

/-- The `record` dict `log_run` builds (the current-UTC timestamp is passed
in as a parameter since it is an ambient effect). -/
def logRecord (resume_profile job_profile match_result : JValue)
    (email_text timestamp_utc : String) : Except PyErr JValue := do
  let candidate_name ← pyDictGet resume_profile "name" .null
  let role_title ← pyDictGet job_profile "role_title" .null
  let location ← pyDictGet job_profile "location" .null
  let score ← pyDictGet match_result "score" .null
  let overlapping_skills ← pyDictGet match_result "overlapping_skills" .null
  let missing_skills ← pyDictGet match_result "missing_skills" .null
  return .obj [("timestamp_utc", .str timestamp_utc),
               ("candidate_name", candidate_name),
               ("role_title", role_title),
               ("location", location),
               ("score", score),
               ("overlapping_skills", overlapping_skills),
               ("missing_skills", missing_skills),
               ("email_preview", .str (email_text.take 300))]

/-- Embeds `log_run`: the guarded parses, the record, and the `try: append
except Exception as e: return f"Failed to log run: {e}"` block; the
append to `runs_log.jsonl` is the explicit `append` parameter. -/
def log_run (resume_profile_json job_profile_json match_result_json : String)
    (email_text timestamp_utc : String)
    (append : JValue → Except String Unit) : Except PyErr String := do
  let resume_profile := loadsOrEmpty resume_profile_json
  let job_profile := loadsOrEmpty job_profile_json
  let match_result := loadsOrEmpty match_result_json
  let record ← logRecord resume_profile job_profile match_result email_text timestamp_utc
  match append record with
  | .ok _ => return "Run logged to runs_log.jsonl."
  | .error e => return "Failed to log run: " ++ e

/-! ### `tools/outreach_tools.py` -/

/-- Embeds `draft_outreach_email` — note the three unguarded `json.loads` calls at
its top: a decode failure propagates. -/
def draft_outreach_email (resume_profile_json job_profile_json match_result_json : String) :
    Except PyErr String := do
  let resume_profile ←
    match json_loads resume_profile_json with
    | some v => Except.ok v
    | none => Except.error PyErr.jsonDecodeError
  let job_profile ←
    match json_loads job_profile_json with
    | some v => Except.ok v
    | none => Except.error PyErr.jsonDecodeError
  let match_result ←
    match json_loads match_result_json with
    | some v => Except.ok v
    | none => Except.error PyErr.jsonDecodeError
  let name ← pyDictGet resume_profile "name" (.str "Candidate")
  let role ← pyDictGet job_profile "role_title" (.str "the role")
  let location ← pyDictGet job_profile "location" (.str "your team")
  let score ← pyDictGet match_result "score" (.num 0)
  let overlapping ← pyDictGet match_result "overlapping_skills" (.arr [])
  let missing ← pyDictGet match_result "missing_skills" (.arr [])
  let overlap_str ←
    if pyTruthy overlapping then pyJoinStr ", " overlapping
    else pure "relevant experience"
  let missing_str : Option String ←
    if pyTruthy missing then do
      pure (some (← pyJoinStr ", " missing))
    else pure none
  let intro_base :=
    "I hope you\x27re doing well. My name is " ++ pyStr name ++
    ", and I\x27m very interested in the " ++ pyStr role ++ " opportunity"
  let intro_line :=
    (if pyTruthy location && !(pyEqStr location "Not specified") then
      intro_base ++ " in " ++ pyStr location
    else intro_base) ++ "."
  let strengths_line :=
    "From reviewing the job description, I believe my background is a strong match, especially in " ++
    overlap_str ++ "."
  let growth_line :=
    match missing_str with
    | some ms =>
      "I\x27m also excited to grow further in " ++ ms ++
      ", and I\x27m actively learning or using these in my recent projects."
    | none =>
      "I believe my current skill set already aligns very closely with the listed requirements."
  let scoreStr ← pyFormat2 score
  let score_line := "(Approximate skill match score from my agent: " ++ scoreStr ++ ")."
  return "Subject: Interest in " ++ pyStr role ++ "\n\nHi,\n\n" ++
    intro_line ++ "\n" ++ strengths_line ++ "\n" ++ growth_line ++ "\n\n" ++
    score_line ++
    "\n\nIf you think there could be a fit, I would love the chance to discuss how I can contribute to your team.\n\nBest regards,\n" ++
    pyStr name ++ "\n"

/-! ### shape predicates used by the claims -/

/-- Does `s` parse to a JSON object? -/
def parsesToDict (s : String) : Bool :=
  match json_loads s with
  | some (.obj _) => true
  | _ => false

/-- Holds (as `true`) when `s` either fails to parse or parses to a JSON object (the
only inputs on which the `.get`-based field accesses cannot raise). -/
def dictOrFail (s : String) : Bool :=
  match json_loads s with
  | some (.obj _) => true
  | some _ => false
  | none => true

/-- A present field must be a list of strings (absent is fine). -/
def fieldIsStrList (fs : List (String × JValue)) (key : String) : Bool :=
  match (fs.find? (fun p => p.1 == key)).map Prod.snd with
  | none => true
  | some (.arr l) => l.all (fun x => match x with | .str _ => true | _ => false)
  | some _ => false

/-- A present score field must be numeric (absent is fine). -/
def scoreFieldOk (fs : List (String × JValue)) : Bool :=
  match (fs.find? (fun p => p.1 == "score")).map Prod.snd with
  | none => true
  | some (.num _) => true
  | some _ => false

/-- Inputs on which the guarded generators are exercised by the amended
totality claim: unparseable (degrading to `{}`), or an object whose skill
fields are lists of strings and whose score is numeric when present. -/
def genSafeInput (s : String) : Bool :=
  match json_loads s with
  | none => true
  | some (.obj fs) =>
    fieldIsStrList fs "overlapping_skills" && fieldIsStrList fs "missing_skills" &&
    fieldIsStrList fs "required_skills" && scoreFieldOk fs
  | some _ => false

/-- Skill lists as the Result Validator emits them: trimmed, lowercased,
non-empty entries, lexicographically sorted, duplicate-free. -/
def skillsNormalized (l : List String) : Prop :=
  (∀ s ∈ l, pyStrip s = s ∧ pyLower s = s ∧ s ≠ "") ∧
  List.Sorted strLeP l ∧ l.Nodup

/-! ## Lemmas -/

theorem str_ext {s t : String} (h : s.data = t.data) : s = t := by
  cases s; cases t; exact congrArg String.mk h

theorem char_eq_of_toNat {a b : Char} (h : a.toNat = b.toNat) : a = b :=
  Char.ext (UInt32.ext h)

theorem pyLowerChar_idem (c : Char) : pyLowerChar (pyLowerChar c) = pyLowerChar c := by
  unfold pyLowerChar
  by_cases h : 65 ≤ c.toNat ∧ c.toNat ≤ 90
  · simp only [if_pos h]
    obtain ⟨h1, h2⟩ := h
    set n := c.toNat with hn
    interval_cases n <;> decide
  · simp only [if_neg h]

theorem isPySpace_pyLowerChar (c : Char) : isPySpace (pyLowerChar c) = isPySpace c := by
  unfold pyLowerChar
  by_cases h : 65 ≤ c.toNat ∧ c.toNat ≤ 90
  · simp only [if_pos h]
    obtain ⟨h1, h2⟩ := h
    have hr : isPySpace c = false := by
      unfold isPySpace
      simp only [Bool.or_eq_false_iff, beq_eq_false_iff_ne, ne_eq]
      omega
    rw [hr]
    set n := c.toNat with hn
    interval_cases n <;> decide
  · simp only [if_neg h]

theorem pyLower_data (s : String) : (pyLower s).data = s.data.map pyLowerChar := rfl

theorem pyLower_idem (s : String) : pyLower (pyLower s) = pyLower s := by
  apply str_ext
  show (s.data.map pyLowerChar).map pyLowerChar = s.data.map pyLowerChar
  rw [List.map_map]
  exact List.map_congr_left (fun a _ => pyLowerChar_idem a)

theorem pyLower_empty_iff (s : String) : pyLower s = "" ↔ s = "" := by
  constructor
  · intro h
    have h2 : s.data.map pyLowerChar = [] := congrArg String.data h
    rw [List.map_eq_nil_iff] at h2
    exact str_ext h2
  · intro h; subst h; rfl

theorem head?_dropWhile (p : Char → Bool) (l : List Char) :
    ∀ c, (l.dropWhile p).head? = some c → p c = false := by
  induction l with
  | nil => intro c h; simp [List.dropWhile] at h
  | cons a t ih =>
    intro c h
    rw [List.dropWhile_cons] at h
    by_cases hp : p a = true
    · rw [if_pos hp] at h; exact ih c h
    · rw [if_neg hp] at h
      simp only [List.head?_cons, Option.some.injEq] at h
      rw [← h]
      exact Bool.not_eq_true _ |>.mp hp

theorem dropWhile_eq_self (p : Char → Bool) (l : List Char)
    (h : ∀ c, l.head? = some c → p c = false) : l.dropWhile p = l := by
  cases l with
  | nil => rfl
  | cons a t =>
    rw [List.dropWhile_cons, if_neg]
    rw [h a rfl]
    exact Bool.false_ne_true

theorem getLast?_dropWhile (p : Char → Bool) (l : List Char)
    (h : l.dropWhile p ≠ []) : (l.dropWhile p).getLast? = l.getLast? := by
  induction l with
  | nil => simp [List.dropWhile] at h
  | cons a t ih =>
    rw [List.dropWhile_cons]
    by_cases hp : p a = true
    · rw [List.dropWhile_cons, if_pos hp] at h
      rw [if_pos hp, ih h]
      cases t with
      | nil => simp [List.dropWhile] at h
      | cons b t2 => rw [List.getLast?_cons_cons]
    · rw [if_neg hp]

theorem pyStripList_head (l : List Char) :
    ∀ c, (pyStripList l).head? = some c → isPySpace c = false := by
  intro c h
  unfold pyStripList at h
  rw [List.head?_reverse] at h
  by_cases hne : ((l.dropWhile isPySpace).reverse.dropWhile isPySpace) = []
  · rw [hne] at h; simp at h
  · rw [getLast?_dropWhile _ _ hne, List.getLast?_reverse] at h
    exact head?_dropWhile _ _ c h

theorem pyStripList_revHead (l : List Char) :
    ∀ c, (pyStripList l).reverse.head? = some c → isPySpace c = false := by
  intro c h
  unfold pyStripList at h
  rw [List.reverse_reverse] at h
  exact head?_dropWhile _ _ c h

theorem pyStripList_fix (l : List Char)
    (h1 : ∀ c, l.head? = some c → isPySpace c = false)
    (h2 : ∀ c, l.reverse.head? = some c → isPySpace c = false) :
    pyStripList l = l := by
  unfold pyStripList
  rw [dropWhile_eq_self _ _ h1, dropWhile_eq_self _ _ h2, List.reverse_reverse]

theorem pyStrip_data (s : String) : (pyStrip s).data = pyStripList s.data := rfl

theorem pyStrip_idem (s : String) : pyStrip (pyStrip s) = pyStrip s := by
  apply str_ext
  rw [pyStrip_data, pyStrip_data]
  exact pyStripList_fix _ (pyStripList_head _) (pyStripList_revHead _)

theorem pyStripList_map_lower (l : List Char) :
    pyStripList (l.map pyLowerChar) = (pyStripList l).map pyLowerChar := by
  have hcomp : isPySpace ∘ pyLowerChar = isPySpace := funext isPySpace_pyLowerChar
  unfold pyStripList
  rw [List.dropWhile_map, hcomp, ← List.map_reverse, List.dropWhile_map, hcomp,
    ← List.map_reverse]

theorem pyStrip_pyLower (s : String) : pyStrip (pyLower s) = pyLower (pyStrip s) := by
  apply str_ext
  rw [pyStrip_data, pyLower_data, pyLower_data, pyStrip_data]
  exact pyStripList_map_lower s.data

theorem pyStrip_empty_iff_isEmpty (s : String) : pyStrip s = "" ↔ (pyStrip s).isEmpty = true :=
  (String.isEmpty_iff _).symm

theorem lexLe_total : ∀ a b : List Char, lexLe a b = true ∨ lexLe b a = true := by
  intro a
  induction a with
  | nil => intro b; exact Or.inl rfl
  | cons c cs ih =>
    intro b
    cases b with
    | nil => exact Or.inr rfl
    | cons d ds =>
      simp only [lexLe]
      rcases Nat.lt_trichotomy c.toNat d.toNat with h | h | h
      · left; rw [if_pos h]
      · rw [h]
        simp only [Nat.lt_irrefl, if_neg, if_false]
        exact ih ds
      · right; rw [if_pos h]

theorem lexLe_trans : ∀ a b c : List Char,
    lexLe a b = true → lexLe b c = true → lexLe a c = true := by
  intro a
  induction a with
  | nil => intro b c _ _; rfl
  | cons x xs ih =>
    intro b c hab hbc
    cases b with
    | nil => simp [lexLe] at hab
    | cons y ys =>
      cases c with
      | nil => simp [lexLe] at hbc
      | cons z zs =>
        simp only [lexLe] at hab hbc ⊢
        split_ifs at hab hbc ⊢ <;>
          first
          | rfl
          | omega
          | exact ih ys zs hab hbc

theorem lexLe_antisymm : ∀ a b : List Char,
    lexLe a b = true → lexLe b a = true → a = b := by
  intro a
  induction a with
  | nil =>
    intro b _ hba
    cases b with
    | nil => rfl
    | cons d ds => simp [lexLe] at hba
  | cons x xs ih =>
    intro b hab hba
    cases b with
    | nil => simp [lexLe] at hab
    | cons y ys =>
      simp only [lexLe] at hab hba
      rcases Nat.lt_trichotomy x.toNat y.toNat with h | h | h
      · rw [if_neg (Nat.lt_asymm h), if_pos h] at hba
        exact absurd hba (by decide)
      · rw [h] at hab hba
        simp only [Nat.lt_irrefl, if_neg, if_false] at hab hba
        rw [char_eq_of_toNat h, ih ys hab hba]
      · rw [if_neg (Nat.lt_asymm h), if_pos h] at hab
        exact absurd hab (by decide)

instance : IsTotal String strLeP := ⟨fun a b => lexLe_total a.data b.data⟩

instance : IsTrans String strLeP := ⟨fun a b c => lexLe_trans a.data b.data c.data⟩

instance : IsAntisymm String strLeP := ⟨fun _ _ h1 h2 => str_ext (lexLe_antisymm _ _ h1 h2)⟩

theorem mem_dedupFirstAux (x : String) :
    ∀ (l seen : List String), x ∈ dedupFirstAux seen l ↔ x ∈ l ∧ x ∉ seen := by
  intro l
  induction l with
  | nil => intro seen; simp [dedupFirstAux]
  | cons a t ih =>
    intro seen
    simp only [dedupFirstAux]
    by_cases ha : a ∈ seen
    · rw [if_pos ha, ih seen]
      constructor
      · rintro ⟨hx, hns⟩; exact ⟨List.mem_cons_of_mem _ hx, hns⟩
      · rintro ⟨hx, hns⟩
        rcases List.mem_cons.mp hx with rfl | hx
        · exact absurd ha hns
        · exact ⟨hx, hns⟩
    · rw [if_neg ha]
      simp only [List.mem_cons, ih (a :: seen), List.mem_cons]
      constructor
      · rintro (rfl | ⟨hx, hns⟩)
        · exact ⟨Or.inl rfl, ha⟩
        · exact ⟨Or.inr hx, fun hs => hns (Or.inr hs)⟩
      · rintro ⟨rfl | hx, hns⟩
        · exact Or.inl rfl
        · by_cases hax : x = a
          · exact Or.inl hax
          · exact Or.inr ⟨hx, fun hs => hns (by
              rcases hs with h | h
              · exact absurd h hax
              · exact h)⟩

theorem mem_dedupFirst (x : String) (l : List String) : x ∈ dedupFirst l ↔ x ∈ l := by
  rw [dedupFirst, mem_dedupFirstAux]
  simp

theorem nodup_dedupFirstAux : ∀ (l seen : List String), (dedupFirstAux seen l).Nodup := by
  intro l
  induction l with
  | nil => intro seen; exact List.nodup_nil
  | cons a t ih =>
    intro seen
    simp only [dedupFirstAux]
    by_cases ha : a ∈ seen
    · rw [if_pos ha]; exact ih seen
    · rw [if_neg ha]
      refine List.Nodup.cons ?_ (ih (a :: seen))
      intro hmem
      exact ((mem_dedupFirstAux a t (a :: seen)).mp hmem).2 (List.mem_cons_self a seen)

theorem nodup_dedupFirst (l : List String) : (dedupFirst l).Nodup :=
  nodup_dedupFirstAux l []

theorem dedupFirstAux_eq_self : ∀ (l seen : List String), l.Nodup →
    (∀ x ∈ l, x ∉ seen) → dedupFirstAux seen l = l := by
  intro l
  induction l with
  | nil => intro seen _ _; rfl
  | cons a t ih =>
    intro seen hnd hdisj
    simp only [dedupFirstAux]
    rw [if_neg (hdisj a (List.mem_cons_self a t))]
    congr 1
    refine ih (a :: seen) (List.Nodup.of_cons hnd) ?_
    intro x hx
    simp only [List.mem_cons]
    rintro (rfl | hs)
    · exact (List.nodup_cons.mp hnd).1 hx
    · exact hdisj x (List.mem_cons_of_mem _ hx) hs

theorem dedupFirst_eq_self {l : List String} (h : l.Nodup) : dedupFirst l = l :=
  dedupFirstAux_eq_self l [] h (fun _ _ => List.not_mem_nil _)

theorem sortStrings_perm (l : List String) : (sortStrings l).Perm l :=
  List.perm_insertionSort strLeP l

theorem mem_sortStrings (x : String) (l : List String) : x ∈ sortStrings l ↔ x ∈ l :=
  (sortStrings_perm l).mem_iff

theorem sortStrings_sorted (l : List String) : List.Sorted strLeP (sortStrings l) :=
  List.sorted_insertionSort strLeP l

theorem sortStrings_nodup {l : List String} (h : l.Nodup) : (sortStrings l).Nodup :=
  (sortStrings_perm l).nodup_iff.mpr h

theorem sortStrings_eq_self {l : List String} (h : List.Sorted strLeP l) :
    sortStrings l = l :=
  List.eq_of_perm_of_sorted (sortStrings_perm l) (sortStrings_sorted l) h

theorem pySortedSet_fix {l : List String} (hs : List.Sorted strLeP l) (hn : l.Nodup) :
    sortStrings (dedupFirst l) = l := by
  rw [dedupFirst_eq_self hn]
  exact sortStrings_eq_self hs

theorem isEmpty_false_iff (s : String) : s.isEmpty = false ↔ s ≠ "" := by
  rw [ne_eq, ← String.isEmpty_iff]
  cases s.isEmpty <;> simp

theorem listInfixB_iff (n : List Char) : ∀ h : List Char, listInfixB n h = true ↔ n <:+: h := by
  intro h
  induction h with
  | nil =>
    simp only [listInfixB, List.isEmpty_iff]
    constructor
    · rintro rfl; exact List.infix_rfl
    · intro hn; exact List.eq_nil_of_infix_nil hn
  | cons c t ih =>
    simp only [listInfixB, Bool.or_eq_true, List.isPrefixOf_iff_prefix, ih,
      List.infix_cons_iff]

theorem pyIn_iff (a b : String) : pyIn a b = true ↔ a.data <:+: b.data :=
  listInfixB_iff a.data b.data

theorem pyIn_trans {a b c : String} (h1 : pyIn a b = true) (h2 : pyIn b c = true) :
    pyIn a c = true :=
  (pyIn_iff a c).mpr (((pyIn_iff a b).mp h1).trans ((pyIn_iff b c).mp h2))

theorem mem_extract_skills (t sk : String) :
    sk ∈ _extract_skills t ↔ sk ∈ COMMON_SKILLS ∧ pyIn sk (pyLower t) = true := by
  unfold _extract_skills
  rw [mem_dedupFirst, List.mem_filter]

theorem mem_extract_required_skills (t sk : String) :
    sk ∈ _extract_required_skills t ↔ sk ∈ COMMON_SKILLS ∧ pyIn sk (pyLower t) = true := by
  unfold _extract_required_skills
  rw [mem_dedupFirst, List.mem_filter]

theorem mem_extract_skills_from_text (t sk : String) :
    sk ∈ _extract_skills_from_text t ↔ sk ∈ _SKILL_VOCAB ∧ pyIn sk (pyLower t) = true := by
  unfold _extract_skills_from_text
  rw [mem_sortStrings, mem_dedupFirst, List.mem_filter]

theorem ok_bind {α β : Type} (v : α) (f : α → Except PyErr β) :
    (Except.ok v >>= f) = f v := rfl

theorem error_bind {α β : Type} (e : PyErr) (f : α → Except PyErr β) :
    ((Except.error e : Except PyErr α) >>= f) = .error e := rfl

theorem pyDictGet_obj (fs : List (String × JValue)) (k : String) (d : JValue) :
    pyDictGet (.obj fs) k d = .ok (jlookupD fs k d) := rfl

theorem filterMap_id_of {α : Type} (f : α → Option α) :
    ∀ l : List α, (∀ s ∈ l, f s = some s) → l.filterMap f = l := by
  intro l
  induction l with
  | nil => intro _; rfl
  | cons a t ih =>
    intro h
    rw [List.filterMap_cons, h a (List.mem_cons_self a t),
      ih (fun s hs => h s (List.mem_cons_of_mem _ hs))]

theorem pyOr_stable {x d : JValue} (hd : pyTruthy d = false) :
    pyOr (pyOr x d) d = pyOr x d := by
  unfold pyOr
  by_cases hx : pyTruthy x = true
  · rw [if_pos hx, if_pos hx]
  · rw [if_neg hx, if_neg (by rw [hd]; exact Bool.false_ne_true)]

theorem normSkillSet_ok_props {v : JValue} {l : List String}
    (h : normSkillSet v = .ok l) : skillsNormalized l := by
  unfold normSkillSet at h
  cases hi : pyIter (pyOr v (.arr [])) with
  | error e => rw [hi, error_bind] at h; exact absurd h (by simp)
  | ok items =>
    rw [hi, ok_bind] at h
    simp only [pure, Except.pure, Except.ok.injEq] at h
    subst h
    refine ⟨?_, sortStrings_sorted _, sortStrings_nodup (nodup_dedupFirst _)⟩
    intro s hs
    rw [mem_sortStrings, mem_dedupFirst, List.mem_filterMap] at hs
    obtain ⟨x, _, hx⟩ := hs
    by_cases he : (pyStrip (pyStr x)).isEmpty = true
    · rw [if_pos he] at hx; exact absurd hx (by simp)
    · rw [if_neg he] at hx
      have hx' : s = pyLower (pyStrip (pyStr x)) := by
        exact (Option.some.injEq _ _ ▸ hx).symm
      subst hx'
      refine ⟨?_, pyLower_idem _, ?_⟩
      · rw [pyStrip_pyLower, pyStrip_idem]
      · rw [ne_eq, pyLower_empty_iff]
        exact (isEmpty_false_iff _).mp (Bool.not_eq_true _ |>.mp he)

theorem normSkillSet_fix {l : List String} (h : skillsNormalized l) :
    normSkillSet (.arr (l.map .str)) = .ok l := by
  obtain ⟨helems, hsort, hnodup⟩ := h
  unfold normSkillSet
  have hkept : ∀ ls : List String, (∀ s ∈ ls, pyStrip s = s ∧ pyLower s = s ∧ s ≠ "") →
      (ls.map JValue.str).filterMap (fun s =>
        if (pyStrip (pyStr s)).isEmpty = true then none else some (pyLower (pyStrip (pyStr s)))) = ls := by
    intro ls hls
    rw [List.filterMap_map]
    refine filterMap_id_of _ ls ?_
    intro s hsmem
    obtain ⟨h1, h2, h3⟩ := hls s hsmem
    simp only [Function.comp]
    have hps : pyStr (JValue.str s) = s := rfl
    rw [hps, h1, if_neg (by rw [(isEmpty_false_iff s).mpr h3]; exact Bool.false_ne_true), h2]
  cases l with
  | nil => rfl
  | cons a t =>
    have htr : pyTruthy (.arr ((a :: t).map JValue.str)) = true := by
      simp [pyTruthy, List.map_cons]
    rw [pyOr, if_pos htr]
    simp only [pyIter, ok_bind]
    rw [hkept (a :: t) helems, pySortedSet_fix hsort hnodup]
    rfl

theorem coerceScore_nonneg (v : JValue) : 0 ≤ coerceScore v := by
  unfold coerceScore pyMax pyMin
  split_ifs <;> linarith

theorem coerceScore_le_one (v : JValue) : coerceScore v ≤ 1 := by
  unfold coerceScore pyMax pyMin
  split_ifs <;> linarith

theorem coerceScore_of_bounds {q : ℚ} (h0 : 0 ≤ q) (h1 : q ≤ 1) :
    coerceScore (.num q) = q := by
  unfold coerceScore pyFloat pyMax pyMin
  split_ifs <;> linarith

theorem coerceScore_of_err {v : JValue} {e : PyErr} (h : pyFloat v = .error e) :
    coerceScore v = 0 := by
  unfold coerceScore
  rw [h]
  show pyMax 0 (pyMin 1 0) = 0
  unfold pyMax pyMin
  split_ifs <;> linarith

theorem coerceScore_of_ok {v : JValue} {q : ℚ} (h : pyFloat v = .ok q) :
    coerceScore v = pyMax 0 (pyMin 1 q) := by
  unfold coerceScore
  rw [h]

theorem validate_norm_obj (fs : List (String × JValue)) :
    validate_norm (.obj fs) =
      (normSkillSet (jlookupD fs "overlapping_skills" (.arr []))).bind (fun overlapping =>
        (normSkillSet (jlookupD fs "missing_skills" (.arr []))).bind (fun missing =>
          .ok ⟨coerceScore (jlookupD fs "score" (.num 0)), overlapping, missing,
            pyOr (jlookupD fs "explanation" (.str "")) (.str "")⟩)) := rfl

theorem validate_norm_ok_props {data : JValue} {r : VRes}
    (h : validate_norm data = .ok r) :
    (0 ≤ r.score ∧ r.score ≤ 1) ∧ skillsNormalized r.overlapping_skills ∧
    skillsNormalized r.missing_skills ∧ pyOr r.explanation (.str "") = r.explanation ∧
    ∃ fs, data = .obj fs ∧ r.score = coerceScore (jlookupD fs "score" (.num 0)) := by
  cases data with
  | obj fs =>
    rw [validate_norm_obj] at h
    cases ho : normSkillSet (jlookupD fs "overlapping_skills" (.arr [])) with
    | error e => rw [ho] at h; exact absurd h (by simp [Except.bind])
    | ok lo =>
      cases hm : normSkillSet (jlookupD fs "missing_skills" (.arr [])) with
      | error e => rw [ho, hm] at h; exact absurd h (by simp [Except.bind])
      | ok lm =>
        rw [ho, hm] at h
        simp only [Except.bind, Except.ok.injEq] at h
        subst h
        refine ⟨⟨coerceScore_nonneg _, coerceScore_le_one _⟩,
          normSkillSet_ok_props ho, normSkillSet_ok_props hm,
          pyOr_stable rfl, fs, rfl, rfl⟩
  | null => exact Except.noConfusion h
  | bool b => exact Except.noConfusion h
  | num q => exact Except.noConfusion h
  | str s => exact Except.noConfusion h
  | arr l => exact Except.noConfusion h

theorem validate_norm_toJValue {r : VRes}
    (hb : 0 ≤ r.score ∧ r.score ≤ 1)
    (ho : skillsNormalized r.overlapping_skills)
    (hm : skillsNormalized r.missing_skills)
    (he : pyOr r.explanation (.str "") = r.explanation) :
    validate_norm r.toJValue = .ok r := by
  show validate_norm (.obj _) = .ok r
  rw [validate_norm_obj]
  have h1 : jlookupD [("score", JValue.num r.score),
      ("overlapping_skills", JValue.arr (r.overlapping_skills.map .str)),
      ("missing_skills", JValue.arr (r.missing_skills.map .str)),
      ("explanation", r.explanation)] "overlapping_skills" (.arr []) =
      JValue.arr (r.overlapping_skills.map .str) := rfl
  have h2 : jlookupD [("score", JValue.num r.score),
      ("overlapping_skills", JValue.arr (r.overlapping_skills.map .str)),
      ("missing_skills", JValue.arr (r.missing_skills.map .str)),
      ("explanation", r.explanation)] "missing_skills" (.arr []) =
      JValue.arr (r.missing_skills.map .str) := rfl
  rw [h1, h2, normSkillSet_fix ho, normSkillSet_fix hm]
  simp only [Except.bind]
  congr 1
  have hs : jlookupD [("score", JValue.num r.score),
      ("overlapping_skills", JValue.arr (r.overlapping_skills.map .str)),
      ("missing_skills", JValue.arr (r.missing_skills.map .str)),
      ("explanation", r.explanation)] "score" (.num 0) = JValue.num r.score := rfl
  have hex : jlookupD [("score", JValue.num r.score),
      ("overlapping_skills", JValue.arr (r.overlapping_skills.map .str)),
      ("missing_skills", JValue.arr (r.missing_skills.map .str)),
      ("explanation", r.explanation)] "explanation" (.str "") = r.explanation := rfl
  rw [hs, hex, coerceScore_of_bounds hb.1 hb.2, he]

theorem compute_match_eq {r j : String} {rs js : List String}
    (h1 : lowerSkillList (_ensure_resume_profile r) "skills" = .ok rs)
    (h2 : lowerSkillList (_ensure_job_profile j) "required_skills" = .ok js) :
    compute_match r j = .ok (compute_match_core rs js) := by
  show (lowerSkillList (_ensure_resume_profile r) "skills" >>= fun resume_skills =>
    lowerSkillList (_ensure_job_profile j) "required_skills" >>= fun job_skills =>
    pure (compute_match_core resume_skills job_skills)) = _
  rw [h1, ok_bind, h2, ok_bind]
  rfl

theorem mem_matchOverlap {rs js : List String} (s : String) :
    s ∈ matchOverlap rs js ↔ s ∈ rs ∧ s ∈ js := by
  unfold matchOverlap
  rw [mem_sortStrings, mem_dedupFirst, List.mem_filter, decide_eq_true_eq]

theorem mem_matchMissing {rs js : List String} (s : String) :
    s ∈ matchMissing rs js ↔ s ∈ js ∧ s ∉ rs := by
  unfold matchMissing
  rw [mem_sortStrings, mem_dedupFirst, List.mem_filter, decide_eq_true_eq]

theorem pyRound3_zero : pyRound3 0 = 0 := by
  unfold pyRound3
  norm_num

/-- C1: for profiles whose skill fields extract to (lowercased) string
lists `rs`/`js`, `compute_match` returns the result object of
`compute_match_core rs js`, whose score field is
`round(|overlap| / |job_set|, 3)` when the deduplicated job skill set is
non-empty and `0.0` when it is empty, regardless of the candidate's
skills. -/
theorem claim_C1 (r j : String) (rs js : List String)
    (h1 : lowerSkillList (_ensure_resume_profile r) "skills" = .ok rs)
    (h2 : lowerSkillList (_ensure_job_profile j) "required_skills" = .ok js) :
    compute_match r j = .ok (compute_match_core rs js) ∧
    jlookupD (compute_match_fields rs js) "score" .null =
      .num (if jobSetSize js = 0 then 0
        else pyRound3 (((matchOverlap rs js).length : ℚ) / (jobSetSize js : ℚ))) ∧
    (jobSetSize js = 0 →
      jlookupD (compute_match_fields rs js) "score" .null = .num 0) := by
  refine ⟨compute_match_eq h1 h2, ?_, ?_⟩
  · show JValue.num (pyRound3 (matchScore rs js)) = _
    unfold matchScore
    by_cases hj : jobSetSize js = 0
    · rw [if_pos hj, if_pos hj, pyRound3_zero]
    · rw [if_neg hj, if_neg hj]
  · intro hj
    show JValue.num (pyRound3 (matchScore rs js)) = _
    unfold matchScore
    rw [if_pos hj, pyRound3_zero]

theorem claim_C1_witness :
    lowerSkillList (_ensure_resume_profile "\x7b\"skills\": [\"Python\", \"SQL\"]\x7d")
      "skills" = .ok ["python", "sql"] ∧
    lowerSkillList (_ensure_job_profile
        "\x7b\"required_skills\": [\"Python\", \"React\", \"SQL\"]\x7d")
      "required_skills" = .ok ["python", "react", "sql"] ∧
    (compute_match "\x7b\"skills\": [\"Python\", \"SQL\"]\x7d"
        "\x7b\"required_skills\": [\"Python\", \"React\", \"SQL\"]\x7d" =
      .ok (compute_match_core ["python", "sql"] ["python", "react", "sql"]) ∧
    jlookupD (compute_match_fields ["python", "sql"] ["python", "react", "sql"])
        "score" .null =
      .num (if jobSetSize ["python", "react", "sql"] = 0 then 0
        else pyRound3
          (((matchOverlap ["python", "sql"] ["python", "react", "sql"]).length : ℚ) /
            (jobSetSize ["python", "react", "sql"] : ℚ))) ∧
    (jobSetSize ["python", "react", "sql"] = 0 →
      jlookupD (compute_match_fields ["python", "sql"] ["python", "react", "sql"])
        "score" .null = .num 0)) :=
  ⟨rfl, rfl, claim_C1 _ _ _ _ rfl rfl⟩

/-- C2: for profiles whose skill fields extract to (lowercased) string
lists `rs`/`js`, the overlapping and missing lists of the `compute_match`
result are disjoint, their union as sets is exactly the lowercased
required-skill set `js`, and each is sorted lexicographically ascending
with no duplicates. -/
theorem claim_C2 (r j : String) (rs js : List String)
    (h1 : lowerSkillList (_ensure_resume_profile r) "skills" = .ok rs)
    (h2 : lowerSkillList (_ensure_job_profile j) "required_skills" = .ok js) :
    compute_match r j = .ok (compute_match_core rs js) ∧
    List.Disjoint (matchOverlap rs js) (matchMissing rs js) ∧
    (∀ s, (s ∈ matchOverlap rs js ∨ s ∈ matchMissing rs js) ↔ s ∈ js) ∧
    List.Sorted strLeP (matchOverlap rs js) ∧ (matchOverlap rs js).Nodup ∧
    List.Sorted strLeP (matchMissing rs js) ∧ (matchMissing rs js).Nodup := by
  refine ⟨compute_match_eq h1 h2, ?_, ?_,
    sortStrings_sorted _, sortStrings_nodup (nodup_dedupFirst _),
    sortStrings_sorted _, sortStrings_nodup (nodup_dedupFirst _)⟩
  · intro s ho hm
    obtain ⟨hrs, _⟩ := (mem_matchOverlap s).mp ho
    obtain ⟨_, hnrs⟩ := (mem_matchMissing s).mp hm
    exact hnrs hrs
  · intro s
    constructor
    · rintro (ho | hm)
      · exact ((mem_matchOverlap s).mp ho).2
      · exact ((mem_matchMissing s).mp hm).1
    · intro hjs
      by_cases hrs : s ∈ rs
      · exact Or.inl ((mem_matchOverlap s).mpr ⟨hrs, hjs⟩)
      · exact Or.inr ((mem_matchMissing s).mpr ⟨hjs, hrs⟩)

theorem claim_C2_witness :
    lowerSkillList (_ensure_resume_profile "\x7b\"skills\": [\"SQL\", \"Java\"]\x7d")
      "skills" = .ok ["sql", "java"] ∧
    lowerSkillList (_ensure_job_profile
        "\x7b\"required_skills\": [\"Java\", \"Kafka\", \"SQL\"]\x7d")
      "required_skills" = .ok ["java", "kafka", "sql"] ∧
    (compute_match "\x7b\"skills\": [\"SQL\", \"Java\"]\x7d"
        "\x7b\"required_skills\": [\"Java\", \"Kafka\", \"SQL\"]\x7d" =
      .ok (compute_match_core ["sql", "java"] ["java", "kafka", "sql"]) ∧
    List.Disjoint (matchOverlap ["sql", "java"] ["java", "kafka", "sql"])
      (matchMissing ["sql", "java"] ["java", "kafka", "sql"]) ∧
    (∀ s, (s ∈ matchOverlap ["sql", "java"] ["java", "kafka", "sql"] ∨
        s ∈ matchMissing ["sql", "java"] ["java", "kafka", "sql"]) ↔
      s ∈ ["java", "kafka", "sql"]) ∧
    List.Sorted strLeP (matchOverlap ["sql", "java"] ["java", "kafka", "sql"]) ∧
    (matchOverlap ["sql", "java"] ["java", "kafka", "sql"]).Nodup ∧
    List.Sorted strLeP (matchMissing ["sql", "java"] ["java", "kafka", "sql"]) ∧
    (matchMissing ["sql", "java"] ["java", "kafka", "sql"]).Nodup) :=
  ⟨rfl, rfl, claim_C2 _ _ _ _ rfl rfl⟩

/-- C5: the Result Validator is idempotent — feeding its output back into
it returns the same output (exceptions propagating through the
composition, as they do in Python). -/
theorem claim_C5 (data : JValue) :
    (validate_match_output data).bind validate_match_output =
      validate_match_output data := by
  unfold validate_match_output
  cases h : validate_norm data with
  | error e => rfl
  | ok r =>
    show (validate_norm r.toJValue).map VRes.toJValue = .ok r.toJValue
    obtain ⟨hb, ho, hm, he, _⟩ := validate_norm_ok_props h
    rw [validate_norm_toJValue hb ho hm he]
    rfl

/-- C6: the Result Validator coerces the score field with `float(...)`,
substitutes `0.0` on coercion failure (e.g. for `"abc"`), and clamps the
result to `[0.0, 1.0]`; in particular `1.5 → 1.0` and `-0.2 → 0.0`. -/
theorem claim_C6 :
    (∀ fs r, validate_norm (.obj fs) = .ok r →
      r.score = coerceScore (jlookupD fs "score" (.num 0))) ∧
    (∀ v q, pyFloat v = .ok q → coerceScore v = pyMax 0 (pyMin 1 q)) ∧
    (∀ v e, pyFloat v = .error e → coerceScore v = 0) ∧
    (∀ v, 0 ≤ coerceScore v ∧ coerceScore v ≤ 1) ∧
    coerceScore (.num (3 / 2)) = 1 ∧
    coerceScore (.num (-(1 / 5))) = 0 ∧
    coerceScore (.str "abc") = 0 := by
  refine ⟨?_, fun _ _ h => coerceScore_of_ok h, fun _ _ h => coerceScore_of_err h,
    fun v => ⟨coerceScore_nonneg v, coerceScore_le_one v⟩, ?_, ?_, ?_⟩
  · intro fs r h
    obtain ⟨_, _, _, _, fs', hfs, hscore⟩ := validate_norm_ok_props h
    injection hfs with hfs'
    rw [hfs']
    exact hscore
  · show pyMax 0 (pyMin 1 (3 / 2)) = 1
    unfold pyMax pyMin
    split_ifs <;> linarith
  · show pyMax 0 (pyMin 1 (-(1 / 5))) = 0
    unfold pyMax pyMin
    split_ifs <;> linarith
  · have h : pyFloat (.str "abc") = .error .valueError := rfl
    exact coerceScore_of_err h

theorem claim_C6_witness :
    validate_norm (.obj [("score", .num 2)]) = .ok ⟨1, [], [], .str ""⟩ ∧
    (⟨1, [], [], .str ""⟩ : VRes).score =
      coerceScore (jlookupD [("score", .num 2)] "score" (.num 0)) :=
  ⟨rfl, claim_C6.1 [("score", .num 2)] ⟨1, [], [], .str ""⟩ rfl⟩

/-- C7: the skill lists the Result Validator emits contain only trimmed,
lowercased, non-empty strings, without duplicates and sorted
lexicographically ascending; e.g. `["Python", "python", " SQL "]`
normalizes to `["python", "sql"]`. -/
theorem claim_C7 :
    (∀ data r, validate_norm data = .ok r →
      skillsNormalized r.overlapping_skills ∧ skillsNormalized r.missing_skills) ∧
    validate_norm (.obj [("overlapping_skills",
        .arr [.str "Python", .str "python", .str " SQL "])]) =
      .ok ⟨0, ["python", "sql"], [], .str ""⟩ := by
  constructor
  · intro data r h
    obtain ⟨_, ho, hm, _, _⟩ := validate_norm_ok_props h
    exact ⟨ho, hm⟩
  · rfl

theorem claim_C7_witness :
    skillsNormalized ["python", "sql"] ∧ skillsNormalized [] :=
  claim_C7.1 _ _ claim_C7.2

/-- C4 (amended): on every input that does not parse as a JSON mapping,
the Profile Normalizer's fallback extracts with `match_tools`' own
vocabulary `_SKILL_VOCAB` (not the parsers' `COMMON_SKILLS`) and returns
the recognized entries sorted lexicographically (not in vocabulary order):
the fallback profile carries exactly the set of `_SKILL_VOCAB` entries
contained case-insensitively in the text, deduplicated and sorted. -/
theorem claim_C4 (s : String) (h : parsesToDict s = false) :
    _ensure_resume_profile s = .obj [("raw_text", .str s),
      ("skills", .arr ((_extract_skills_from_text s).map .str))] ∧
    _ensure_job_profile s = .obj [("raw_text", .str s),
      ("required_skills", .arr ((_extract_skills_from_text s).map .str))] ∧
    (∀ sk, sk ∈ _extract_skills_from_text s ↔
      sk ∈ _SKILL_VOCAB ∧ pyIn sk (pyLower s) = true) ∧
    List.Sorted strLeP (_extract_skills_from_text s) ∧
    (_extract_skills_from_text s).Nodup := by
  unfold parsesToDict at h
  refine ⟨?_, ?_, fun sk => mem_extract_skills_from_text s sk,
    sortStrings_sorted _, sortStrings_nodup (nodup_dedupFirst _)⟩
  · unfold _ensure_resume_profile
    cases hj : json_loads s with
    | none => rfl
    | some v =>
      rw [hj] at h
      cases v with
      | obj fs => exact absurd h (by simp)
      | null => rfl
      | bool b => rfl
      | num q => rfl
      | str t => rfl
      | arr l => rfl
  · unfold _ensure_job_profile
    cases hj : json_loads s with
    | none => rfl
    | some v =>
      rw [hj] at h
      cases v with
      | obj fs => exact absurd h (by simp)
      | null => rfl
      | bool b => rfl
      | num q => rfl
      | str t => rfl
      | arr l => rfl

theorem claim_C4_counterexample :
    parsesToDict "Experienced with Kafka and Spark" = false ∧
    _ensure_resume_profile "Experienced with Kafka and Spark" =
      .obj [("raw_text", .str "Experienced with Kafka and Spark"),
            ("skills", .arr [.str "c"])] ∧
    _extract_skills "Experienced with Kafka and Spark" = ["kafka", "spark"] ∧
    JValue.arr [.str "c"] ≠
      .arr ((_extract_skills "Experienced with Kafka and Spark").map .str) := by
  refine ⟨rfl, rfl, rfl, ?_⟩
  intro hcontra
  have h1 : ([JValue.str "c"] : List JValue) = [.str "kafka", .str "spark"] := by
    injection hcontra
  have h2 := congrArg List.length h1
  simp at h2

theorem claim_C4_witness :
    parsesToDict "kafka" = false ∧
    (_ensure_resume_profile "kafka" = .obj [("raw_text", .str "kafka"),
      ("skills", .arr ((_extract_skills_from_text "kafka").map .str))] ∧
    _ensure_job_profile "kafka" = .obj [("raw_text", .str "kafka"),
      ("required_skills", .arr ((_extract_skills_from_text "kafka").map .str))] ∧
    (∀ sk, sk ∈ _extract_skills_from_text "kafka" ↔
      sk ∈ _SKILL_VOCAB ∧ pyIn sk (pyLower "kafka") = true) ∧
    List.Sorted strLeP (_extract_skills_from_text "kafka") ∧
    (_extract_skills_from_text "kafka").Nodup) :=
  ⟨rfl, claim_C4 "kafka" rfl⟩

/-- C9: `parse_json` has no guard around `json.loads`, so on every string
that is not well-formed JSON the decode error propagates to the caller
(despite the docstring's "safely parse"); the empty string is such an
input. -/
theorem claim_C9 (s : String) (h : json_loads s = none) :
    parse_json s = .error .jsonDecodeError := by
  unfold parse_json
  rw [h]

theorem claim_C9_witness :
    json_loads "" = none ∧ parse_json "" = .error .jsonDecodeError :=
  ⟨rfl, claim_C9 "" rfl⟩

/-- C10: skill recognition is raw substring containment, so a vocabulary
entry that is a substring of another recognized phrase is also reported:
any text whose lowercase form contains "spring boot" yields both "spring"
and "spring boot" in the extracted skill lists of `parse_resume`
(`_extract_skills`) and `parse_job_description`
(`_extract_required_skills`); likewise "restful" also yields "rest". -/
theorem claim_C10 :
    (∀ t : String, pyIn "spring boot" (pyLower t) = true →
      "spring" ∈ _extract_skills t ∧ "spring boot" ∈ _extract_skills t ∧
      "spring" ∈ _extract_required_skills t ∧
      "spring boot" ∈ _extract_required_skills t) ∧
    (∀ t : String, pyIn "restful" (pyLower t) = true →
      "rest" ∈ _extract_skills t ∧ "rest" ∈ _extract_required_skills t) ∧
    (∀ t, parse_resume t = .obj [("name", .str (_extract_name t)),
      ("skills", .arr ((_extract_skills t).map .str)), ("raw_text", .str t)]) := by
  refine ⟨?_, ?_, fun t => rfl⟩
  · intro t h
    have hsb : pyIn "spring" "spring boot" = true := by decide
    have hs : pyIn "spring" (pyLower t) = true := pyIn_trans hsb h
    exact ⟨(mem_extract_skills t _).mpr ⟨by decide, hs⟩,
      (mem_extract_skills t _).mpr ⟨by decide, h⟩,
      (mem_extract_required_skills t _).mpr ⟨by decide, hs⟩,
      (mem_extract_required_skills t _).mpr ⟨by decide, h⟩⟩
  · intro t h
    have hrf : pyIn "rest" "restful" = true := by decide
    have hr : pyIn "rest" (pyLower t) = true := pyIn_trans hrf h
    exact ⟨(mem_extract_skills t _).mpr ⟨by decide, hr⟩,
      (mem_extract_required_skills t _).mpr ⟨by decide, hr⟩⟩

theorem claim_C10_witness :
    pyIn "spring boot" (pyLower "Built with Spring Boot and RESTful APIs") = true ∧
    pyIn "restful" (pyLower "Built with Spring Boot and RESTful APIs") = true ∧
    ("spring" ∈ _extract_skills "Built with Spring Boot and RESTful APIs" ∧
      "spring boot" ∈ _extract_skills "Built with Spring Boot and RESTful APIs" ∧
      "spring" ∈ _extract_required_skills "Built with Spring Boot and RESTful APIs" ∧
      "spring boot" ∈ _extract_required_skills "Built with Spring Boot and RESTful APIs") ∧
    ("rest" ∈ _extract_skills "Built with Spring Boot and RESTful APIs" ∧
      "rest" ∈ _extract_required_skills "Built with Spring Boot and RESTful APIs") :=
  ⟨rfl, rfl, claim_C10.1 _ rfl, claim_C10.2.1 _ rfl⟩

theorem loadsOrEmpty_obj {s : String} (h : dictOrFail s = true) :
    ∃ fs, loadsOrEmpty s = .obj fs := by
  unfold dictOrFail at h
  unfold loadsOrEmpty
  cases hj : json_loads s with
  | none => exact ⟨[], rfl⟩
  | some v =>
    rw [hj] at h
    cases v with
    | obj fs => exact ⟨fs, rfl⟩
    | null => exact Bool.noConfusion h
    | bool b => exact Bool.noConfusion h
    | num q => exact Bool.noConfusion h
    | str t => exact Bool.noConfusion h
    | arr l => exact Bool.noConfusion h

/-- C8 (amended): whenever the three JSON arguments each fail to parse or
parse to JSON objects, `log_run` never propagates a fault: it builds the
run record and returns `"Failed to log run: <error>"` when the append to
the log store fails and the success status string otherwise, leaving the
pipeline outcome unaffected; but an argument that parses to a non-object
JSON value makes the unguarded `.get` calls raise `AttributeError`. -/
theorem claim_C8 (r j m e ts : String) (append : JValue → Except String Unit)
    (h1 : dictOrFail r = true) (h2 : dictOrFail j = true) (h3 : dictOrFail m = true) :
    ∃ rec, logRecord (loadsOrEmpty r) (loadsOrEmpty j) (loadsOrEmpty m) e ts = .ok rec ∧
      (∀ err, append rec = .error err →
        log_run r j m e ts append = .ok ("Failed to log run: " ++ err)) ∧
      (append rec = .ok () →
        log_run r j m e ts append = .ok "Run logged to runs_log.jsonl.") := by
  obtain ⟨fr, hfr⟩ := loadsOrEmpty_obj h1
  obtain ⟨fj, hfj⟩ := loadsOrEmpty_obj h2
  obtain ⟨fm, hfm⟩ := loadsOrEmpty_obj h3
  have hrec : logRecord (loadsOrEmpty r) (loadsOrEmpty j) (loadsOrEmpty m) e ts =
      .ok (.obj [("timestamp_utc", .str ts),
        ("candidate_name", jlookupD fr "name" .null),
        ("role_title", jlookupD fj "role_title" .null),
        ("location", jlookupD fj "location" .null),
        ("score", jlookupD fm "score" .null),
        ("overlapping_skills", jlookupD fm "overlapping_skills" .null),
        ("missing_skills", jlookupD fm "missing_skills" .null),
        ("email_preview", .str (e.take 300))]) := by
    rw [hfr, hfj, hfm]
    rfl
  have hrun : log_run r j m e ts append =
      (logRecord (loadsOrEmpty r) (loadsOrEmpty j) (loadsOrEmpty m) e ts >>= fun record =>
        match append record with
        | .ok _ => pure "Run logged to runs_log.jsonl."
        | .error e2 => pure ("Failed to log run: " ++ e2)) := rfl
  refine ⟨_, hrec, ?_, ?_⟩
  · intro err herr
    rw [hrun, hrec, ok_bind, herr]
    rfl
  · intro hok
    rw [hrun, hrec, ok_bind, hok]
    rfl

theorem claim_C8_counterexample :
    log_run "[]" "\x7b\x7d" "\x7b\x7d" "email text" "2024-01-01T00:00:00Z"
      (fun _ => .ok ()) = .error .attributeError := rfl

theorem claim_C8_witness :
    dictOrFail "not json" = true ∧ dictOrFail "\x7b\x7d" = true ∧
    (∃ rec, logRecord (loadsOrEmpty "not json") (loadsOrEmpty "\x7b\x7d")
        (loadsOrEmpty "\x7b\x7d") "email" "ts" = .ok rec ∧
      (∀ err, (fun (_ : JValue) => (Except.error "disk full" : Except String Unit)) rec = .error err →
        log_run "not json" "\x7b\x7d" "\x7b\x7d" "email" "ts"
          (fun _ => .error "disk full") = .ok ("Failed to log run: " ++ err)) ∧
      ((fun (_ : JValue) => (Except.error "disk full" : Except String Unit)) rec = .ok () →
        log_run "not json" "\x7b\x7d" "\x7b\x7d" "email" "ts"
          (fun _ => .error "disk full") = .ok "Run logged to runs_log.jsonl.")) :=
  ⟨rfl, rfl, claim_C8 "not json" "\x7b\x7d" "\x7b\x7d" "email" "ts"
    (fun _ => .error "disk full") rfl rfl rfl⟩

theorem pure_eq_ok {α : Type} (v : α) : (pure v : Except PyErr α) = .ok v := rfl

theorem pyIter_arr (l : List JValue) : pyIter (.arr l) = .ok l := rfl

theorem pySlice_arr (l : List JValue) (n : Nat) :
    pySlice (.arr l) n = .ok (.arr (l.take n)) := rfl

theorem pyFloat_num (q : ℚ) : pyFloat (.num q) = .ok q := rfl

theorem pyLen_arr (l : List JValue) : pyLen (.arr l) = .ok l.length := rfl

theorem loadsOrEmpty_safe {s : String} (h : genSafeInput s = true) :
    ∃ fs, loadsOrEmpty s = .obj fs ∧
      fieldIsStrList fs "overlapping_skills" = true ∧
      fieldIsStrList fs "missing_skills" = true ∧
      fieldIsStrList fs "required_skills" = true ∧
      scoreFieldOk fs = true := by
  unfold genSafeInput at h
  unfold loadsOrEmpty
  cases hj : json_loads s with
  | none => exact ⟨[], rfl, rfl, rfl, rfl, rfl⟩
  | some v =>
    rw [hj] at h
    cases v with
    | obj fs =>
      simp only [Bool.and_eq_true] at h
      obtain ⟨⟨⟨h1, h2⟩, h3⟩, h4⟩ := h
      exact ⟨fs, rfl, h1, h2, h3, h4⟩
    | null => exact Bool.noConfusion h
    | bool b => exact Bool.noConfusion h
    | num q => exact Bool.noConfusion h
    | str t => exact Bool.noConfusion h
    | arr l => exact Bool.noConfusion h

theorem scoreField_num {fs : List (String × JValue)} (h : scoreFieldOk fs = true) :
    ∃ q, jlookupD fs "score" (.num 0) = .num q := by
  unfold scoreFieldOk at h
  unfold jlookupD
  cases hv : (fs.find? (fun p => p.1 == "score")).map Prod.snd with
  | none => exact ⟨0, rfl⟩
  | some v =>
    rw [hv] at h
    cases v with
    | num q => exact ⟨q, rfl⟩
    | null => exact Bool.noConfusion h
    | bool b => exact Bool.noConfusion h
    | str t => exact Bool.noConfusion h
    | arr l => exact Bool.noConfusion h
    | obj o => exact Bool.noConfusion h

theorem allStr_elems {l : List JValue}
    (h : l.all (fun x => match x with | JValue.str _ => true | _ => false) = true) :
    ∀ x ∈ l, ∃ t, x = .str t := by
  intro x hx
  have hp := List.all_eq_true.mp h x hx
  cases x with
  | str t => exact ⟨t, rfl⟩
  | null => exact Bool.noConfusion hp
  | bool b => exact Bool.noConfusion hp
  | num q => exact Bool.noConfusion hp
  | arr l2 => exact Bool.noConfusion hp
  | obj o => exact Bool.noConfusion hp

theorem strListField {fs : List (String × JValue)} {k : String}
    (h : fieldIsStrList fs k = true) :
    ∃ l, pyOr (jlookupD fs k (.arr [])) (.arr []) = .arr l ∧
      ∀ x ∈ l, ∃ t, x = .str t := by
  unfold fieldIsStrList at h
  unfold jlookupD
  cases hv : (fs.find? (fun p => p.1 == k)).map Prod.snd with
  | none => exact ⟨[], rfl, by simp⟩
  | some v =>
    rw [hv] at h
    cases v with
    | arr l =>
      cases l with
      | nil => exact ⟨[], rfl, by simp⟩
      | cons x t => exact ⟨x :: t, rfl, allStr_elems h⟩
    | null => exact Bool.noConfusion h
    | bool b => exact Bool.noConfusion h
    | num q => exact Bool.noConfusion h
    | str t => exact Bool.noConfusion h
    | obj o => exact Bool.noConfusion h

theorem mapM_str_ok : ∀ l : List JValue, (∀ x ∈ l, ∃ t, x = .str t) →
    ∃ strs : List String, l.mapM (fun x => match x with
      | JValue.str s => Except.ok s
      | _ => Except.error PyErr.typeError) = .ok strs := by
  intro l
  induction l with
  | nil => intro _; exact ⟨[], rfl⟩
  | cons a t ih =>
    intro h
    obtain ⟨ta, hta⟩ := h a (List.mem_cons_self a t)
    obtain ⟨ts, hts⟩ := ih (fun x hx => h x (List.mem_cons_of_mem _ hx))
    subst hta
    refine ⟨ta :: ts, ?_⟩
    rw [List.mapM_cons, hts]
    rfl

theorem pyJoinStr_arr_ok (sep : String) {l : List JValue}
    (h : ∀ x ∈ l, ∃ t, x = .str t) : ∃ s, pyJoinStr sep (.arr l) = .ok s := by
  obtain ⟨strs, hstrs⟩ := mapM_str_ok l h
  refine ⟨String.intercalate sep strs, ?_⟩
  unfold pyJoinStr
  rw [pyIter_arr, ok_bind, hstrs]
  rfl

theorem explain_match_ok {a b c : String} (ha : genSafeInput a = true)
    (hb : genSafeInput b = true) (hc : genSafeInput c = true) :
    ∃ s, explain_match a b c = .ok s := by
  obtain ⟨fa, hfa, _, _, _, _⟩ := loadsOrEmpty_safe ha
  obtain ⟨fb, hfb, _, _, _, _⟩ := loadsOrEmpty_safe hb
  obtain ⟨fc, hfc, hco, hcm, _, hcs⟩ := loadsOrEmpty_safe hc
  obtain ⟨q, hq⟩ := scoreField_num hcs
  obtain ⟨lo, hlo, hloe⟩ := strListField hco
  obtain ⟨lm, hlm, hlme⟩ := strListField hcm
  obtain ⟨so, hso⟩ := pyJoinStr_arr_ok ", "
    (l := lo.take 8) (fun x hx => hloe x (List.take_subset _ _ hx))
  obtain ⟨sm, hsm⟩ := pyJoinStr_arr_ok ", "
    (l := lm.take 8) (fun x hx => hlme x (List.take_subset _ _ hx))
  simp only [explain_match, hfa, hfb, hfc, pyDictGet_obj, ok_bind, hq, pyFloat_num,
    hlo, hlm, pySlice_arr, pure_eq_ok, hso, hsm]
  by_cases hto : pyTruthy (.arr lo) = true
  · rw [if_pos hto]
    by_cases htm : pyTruthy (.arr lm) = true
    · rw [if_pos htm]; exact ⟨_, rfl⟩
    · rw [if_neg htm]; exact ⟨_, rfl⟩
  · rw [if_neg hto]
    by_cases htm : pyTruthy (.arr lm) = true
    · rw [if_pos htm]; exact ⟨_, rfl⟩
    · rw [if_neg htm]; exact ⟨_, rfl⟩

theorem suggest_resume_edits_ok {a b c : String} (ha : genSafeInput a = true)
    (hb : genSafeInput b = true) (hc : genSafeInput c = true) :
    ∃ s, suggest_resume_edits a b c = .ok s := by
  obtain ⟨fa, hfa, _, _, _, _⟩ := loadsOrEmpty_safe ha
  obtain ⟨fb, hfb, _, _, hbr, _⟩ := loadsOrEmpty_safe hb
  obtain ⟨fc, hfc, hco, hcm, _, _⟩ := loadsOrEmpty_safe hc
  obtain ⟨lr, hlr, hlre⟩ := strListField hbr
  obtain ⟨lo, hlo, hloe⟩ := strListField hco
  obtain ⟨lm, hlm, hlme⟩ := strListField hcm
  obtain ⟨so, hso⟩ := pyJoinStr_arr_ok ", "
    (l := lo.take 10) (fun x hx => hloe x (List.take_subset _ _ hx))
  obtain ⟨sm, hsm⟩ := pyJoinStr_arr_ok ", "
    (l := lm.take 10) (fun x hx => hlme x (List.take_subset _ _ hx))
  obtain ⟨sr, hsr⟩ := pyJoinStr_arr_ok ", "
    (l := lr.take 12) (fun x hx => hlre x (List.take_subset _ _ hx))
  simp only [suggest_resume_edits, hfa, hfb, hfc, pyDictGet_obj, ok_bind,
    hlr, hlo, hlm, pySlice_arr, pure_eq_ok, hso, hsm, hsr]
  by_cases hto : pyTruthy (.arr lo) = true <;>
    by_cases htm : pyTruthy (.arr lm) = true <;>
    by_cases htr : pyTruthy (.arr lr) = true <;>
    simp only [if_pos, if_neg, hto, htm, htr, if_true] <;>
    exact ⟨_, rfl⟩

theorem generate_targeted_bullets_ok {a b : String} (ha : genSafeInput a = true)
    (hb : genSafeInput b = true) :
    ∃ s, generate_targeted_bullets a b = .ok s := by
  obtain ⟨fa, hfa, _, _, _, _⟩ := loadsOrEmpty_safe ha
  obtain ⟨fb, hfb, _, _, hbr, _⟩ := loadsOrEmpty_safe hb
  obtain ⟨lr, hlr, hlre⟩ := strListField hbr
  obtain ⟨s3, hs3⟩ := pyJoinStr_arr_ok ", "
    (l := (lr.take 5).take 3)
    (fun x hx => hlre x (List.take_subset _ _ (List.take_subset _ _ hx)))
  simp only [generate_targeted_bullets, hfa, hfb, pyDictGet_obj, ok_bind, hlr,
    pySlice_arr, pure_eq_ok, pyLen_arr, hs3]
  by_cases htr : pyTruthy (.arr (lr.take 5)) = true
  · rw [if_pos htr]
    by_cases hlen : (lr.take 5).length > 1
    · rw [if_pos hlen]
      obtain ⟨x0, hx0⟩ : ∃ x, (lr.take 5).get? 0 = some x := by
        cases h5 : lr.take 5 with
        | nil => rw [h5] at hlen; simp at hlen
        | cons y t => exact ⟨y, rfl⟩
      obtain ⟨x1, hx1⟩ : ∃ x, (lr.take 5).get? 1 = some x := by
        cases h5 : lr.take 5 with
        | nil => rw [h5] at hlen; simp at hlen
        | cons y t =>
          cases t with
          | nil => rw [h5] at hlen; simp at hlen
          | cons z t2 => exact ⟨z, rfl⟩
      have hi0 : pyIndex (.arr (lr.take 5)) 0 = .ok x0 := by
        show (match (lr.take 5).get? 0 with
          | some x => Except.ok x
          | none => Except.error PyErr.indexError) = Except.ok x0
        rw [hx0]
      have hi1 : pyIndex (.arr (lr.take 5)) 1 = .ok x1 := by
        show (match (lr.take 5).get? 1 with
          | some x => Except.ok x
          | none => Except.error PyErr.indexError) = Except.ok x1
        rw [hx1]
      simp only [hi0, hi1, ok_bind]
      exact ⟨_, rfl⟩
    · rw [if_neg hlen]
      exact ⟨_, rfl⟩
  · rw [if_neg htr]
    exact ⟨_, rfl⟩

/-- C3 (amended): the three guarded generators of `improved_tools.py`
(`explain_match`, `suggest_resume_edits`, `generate_targeted_bullets`)
never raise on inputs that fail to parse (degrading to empty mappings) or
parse to objects with absent fields, provided a present score field is
numeric and present skill fields are lists of strings — each returns a
formatted string; `draft_outreach_email`, by contrast, parses with no
guard and propagates the JSON decode error on non-JSON input, and a
non-numeric score string makes `explain_match`'s bare `float(...)`
raise. -/
theorem claim_C3 (a b c : String) (ha : genSafeInput a = true)
    (hb : genSafeInput b = true) (hc : genSafeInput c = true) :
    (∃ s, explain_match a b c = .ok s) ∧
    (∃ s, suggest_resume_edits a b c = .ok s) ∧
    (∃ s, generate_targeted_bullets a b = .ok s) :=
  ⟨explain_match_ok ha hb hc, suggest_resume_edits_ok ha hb hc,
    generate_targeted_bullets_ok ha hb⟩

theorem claim_C3_counterexample :
    draft_outreach_email "raw resume text" "raw job text" "raw match text" =
      .error .jsonDecodeError ∧
    explain_match "\x7b\x7d" "\x7b\x7d" "\x7b\"score\": \"abc\"\x7d" =
      .error .valueError :=
  ⟨rfl, rfl⟩

theorem claim_C3_witness :
    genSafeInput "Jane Doe resume raw text" = true ∧
    genSafeInput "\x7b\"role_title\": \"Backend\", \"required_skills\": [\"python\"]\x7d" = true ∧
    genSafeInput "\x7b\"overlapping_skills\": [\"python\"], \"missing_skills\": []\x7d" = true ∧
    ((∃ s, explain_match "Jane Doe resume raw text"
        "\x7b\"role_title\": \"Backend\", \"required_skills\": [\"python\"]\x7d"
        "\x7b\"overlapping_skills\": [\"python\"], \"missing_skills\": []\x7d" = .ok s) ∧
    (∃ s, suggest_resume_edits "Jane Doe resume raw text"
        "\x7b\"role_title\": \"Backend\", \"required_skills\": [\"python\"]\x7d"
        "\x7b\"overlapping_skills\": [\"python\"], \"missing_skills\": []\x7d" = .ok s) ∧
    (∃ s, generate_targeted_bullets "Jane Doe resume raw text"
        "\x7b\"role_title\": \"Backend\", \"required_skills\": [\"python\"]\x7d" = .ok s)) :=
  ⟨rfl, rfl, rfl, claim_C3 _ _ _ rfl rfl rfl⟩
